import Mathlib

/-!
Verification development for the human-walking-radar simulator.

The repository has two numerical subsystems:
* `generate_segments.py` — gait selection (`get_gait`), cycle timing
  (`rlc`, `rdc`, `numcyc`, `numpl`, `nt`), joint-angle curves, and the
  kinematic segment builder (`_generate_segments`);
* `simulate_radar.py` / `src/radar_helpers.py` — per-part complex radar
  returns (`compute_ph`, `rcsellipsoid`) accumulated into a range-time
  matrix (`simulate_radar`).

Machine floats are idealised as real numbers.  Python's `int(np.round x)`
and builtin `round` round half to even; that tie rule is embedded
faithfully as `npround`.  Python exceptions are embedded as `Except`
values: raising (anything, including the `raise '<string>'` statements of
`get_gait`, which in Python 3 surface as `TypeError`) is `Except.error`.
-/

/-- The three gait classes of Boulic's model.  The source represents them as
the strings `'a'`, `'b'`, `'c'` returned by `get_gait`. -/
inductive Gait where
  | a : Gait
  | b : Gait
  | c : Gait
deriving DecidableEq

/-- `get_gait` of `generate_segments.py` lines 19-29: selects the gait class
from the relative velocity, raising for `rv ≤ 0` and for `rv > 3`.
(The source raises bare strings, which Python 3 turns into `TypeError`;
either way the call fails, embedded as `Except.error`.) -/
noncomputable def get_gait (rv : ℝ) : Except String Gait :=
  if rv ≤ 0 then Except.error "Velocity must be positive"
  else if rv < 0.5 then Except.ok Gait.a
  else if rv < 1.3 then Except.ok Gait.b
  else if rv ≤ 3 then Except.ok Gait.c
  else Except.error "Relative velocity must be less than 3"

/-- Gait dispatch of `_generate_segments` (lines 154-156): `get_gait` runs
only when the caller passes `gait = ''` (embedded as `none`); an explicit
gait is used as given, with no velocity validation at all. -/
noncomputable def select_gait (gait : Option Gait) (rv : ℝ) : Except String Gait :=
  match gait with
  | none => get_gait rv
  | some g => Except.ok g

/-- Rounding to the nearest integer with ties to even: the behaviour of
`np.round` and of Python's builtin `round` used by the source. -/
noncomputable def npround (x : ℝ) : ℤ :=
  if Int.fract x = 1 / 2 then (if Even ⌊x⌋ then ⌊x⌋ else ⌊x⌋ + 1) else round x

/-- Relative length of a gait cycle, `rlc = 1.346*np.sqrt(rv)`
(`generate_segments.py` line 65). -/
noncomputable def rlc_of (rv : ℝ) : ℝ := 1.346 * Real.sqrt rv

/-- Real duration of a cycle, `rdc = rlc/(rv*Ht)` with
`Ht = 0.245*height + 0.246*height` (`generate_segments.py` lines 60-69). -/
noncomputable def rdc_of (height rv : ℝ) : ℝ :=
  rlc_of rv / (rv * (0.245 * height + 0.246 * height))

/-- `numcyc = int(np.ceil(duration/rdc))` (`generate_segments.py` line 70). -/
noncomputable def numcyc_of (height rv duration : ℝ) : ℤ :=
  ⌈duration / rdc_of height rv⌉

/-- `numpl = int(np.round(T*fs))` with `T = rdc*numcyc`
(`generate_segments.py` lines 71-74). -/
noncomputable def numpl_of (height rv fs duration : ℝ) : ℤ :=
  npround (rdc_of height rv * (numcyc_of height rv duration : ℝ) * fs)

/-- Per-cycle sample count of `generate_segments` (lines 75-76):
`nt = int(np.round(numpl/numcyc)); nt += int(nt % 2 == 1)`. -/
noncomputable def nt_of (height rv fs duration : ℝ) : ℤ :=
  let nt := npround ((numpl_of height rv fs duration : ℝ) /
    (numcyc_of height rv duration : ℝ))
  nt + (if nt % 2 = 1 then 1 else 0)

theorem get_gait_pos {rv : ℝ} (h : ¬ rv ≤ 0) :
    get_gait rv =
      (if rv < 0.5 then Except.ok Gait.a
       else if rv < 1.3 then Except.ok Gait.b
       else if rv ≤ 3 then Except.ok Gait.c
       else Except.error "Relative velocity must be less than 3") := by
  unfold get_gait
  rw [if_neg h]

theorem get_gait_error_iff (rv : ℝ) :
    (∃ e, get_gait rv = Except.error e) ↔ rv ≤ 0 ∨ 3 < rv := by
  unfold get_gait
  split_ifs with h1 h2 h3 h4
  · exact ⟨fun _ => Or.inl h1, fun _ => ⟨_, rfl⟩⟩
  · constructor
    · rintro ⟨e, he⟩; exact absurd he (by simp)
    · rintro (h | h)
      · exact absurd h h1
      · exact absurd (by linarith : rv < 0.5) (by intro hc; linarith)
  · constructor
    · rintro ⟨e, he⟩; exact absurd he (by simp)
    · rintro (h | h) <;> [exact absurd h h1; linarith]
  · constructor
    · rintro ⟨e, he⟩; exact absurd he (by simp)
    · rintro (h | h) <;> [exact absurd h h1; linarith]
  · constructor
    · intro _
      right
      push_neg at h4
      exact h4
    · exact fun _ => ⟨_, rfl⟩

/-- C1 (counterexample): a call to the segment-generation entry point with
velocity `rv = 4` (outside `(0, 3]`) but an explicitly given gait `'b'`
passes the code's only parameter validation without any error: the
`get_gait` check is bypassed entirely, so the call does not fail with an
`InvalidParameter` error. -/
theorem select_gait_explicit_bypasses_velocity_check :
    select_gait (some Gait.b) 4 = Except.ok Gait.b ∧ (3 : ℝ) < 4 := by
  exact ⟨rfl, by norm_num⟩

/-- C1 (amended): the only parameter validation in `generate_segments` is
the velocity check inside `get_gait`, and it runs only when the gait is
auto-selected (`gait = ''`): an explicitly passed gait is accepted with no
velocity check, and velocities in `(0, 3]` never error; nothing validates
height, duration or sample rate up front. -/
theorem select_gait_validation (rv : ℝ) :
    (∀ g, select_gait (some g) rv = Except.ok g) ∧
    select_gait none rv = get_gait rv ∧
    ((∃ e, get_gait rv = Except.error e) ↔ rv ≤ 0 ∨ 3 < rv) := by
  refine ⟨fun g => rfl, rfl, get_gait_error_iff rv⟩

theorem get_gait_eq_a_iff (rv : ℝ) :
    get_gait rv = Except.ok Gait.a ↔ 0 < rv ∧ rv < 0.5 := by
  unfold get_gait
  split_ifs with h1 h2 h3 h4
  · exact ⟨fun hx => by simp at hx, fun hx => absurd h1 (not_le.mpr hx.1)⟩
  · exact ⟨fun _ => ⟨not_le.mp h1, h2⟩, fun _ => rfl⟩
  · exact ⟨fun hx => by simp at hx, fun hx => absurd hx.2 h2⟩
  · exact ⟨fun hx => by simp at hx, fun hx => absurd hx.2 h2⟩
  · exact ⟨fun hx => by simp at hx, fun hx => absurd hx.2 h2⟩

theorem get_gait_eq_b_iff (rv : ℝ) :
    get_gait rv = Except.ok Gait.b ↔ 0.5 ≤ rv ∧ rv < 1.3 := by
  unfold get_gait
  split_ifs with h1 h2 h3 h4
  · exact ⟨fun hx => by simp at hx, fun hx => by linarith [hx.1]⟩
  · exact ⟨fun hx => by simp at hx, fun hx => by linarith [hx.1]⟩
  · exact ⟨fun _ => ⟨not_lt.mp h2, h3⟩, fun _ => rfl⟩
  · exact ⟨fun hx => by simp at hx, fun hx => absurd hx.2 h3⟩
  · exact ⟨fun hx => by simp at hx, fun hx => absurd hx.2 h3⟩

theorem get_gait_eq_c_iff (rv : ℝ) :
    get_gait rv = Except.ok Gait.c ↔ 1.3 ≤ rv ∧ rv ≤ 3 := by
  unfold get_gait
  split_ifs with h1 h2 h3 h4
  · exact ⟨fun hx => by simp at hx, fun hx => by linarith [hx.1]⟩
  · exact ⟨fun hx => by simp at hx, fun hx => by linarith [hx.1]⟩
  · exact ⟨fun hx => by simp at hx, fun hx => absurd hx.1 (not_le.mpr h3)⟩
  · exact ⟨fun _ => ⟨not_lt.mp h3, h4⟩, fun _ => rfl⟩
  · exact ⟨fun hx => by simp at hx, fun hx => absurd hx.2 h4⟩

/-- C2: `get_gait` is a total step function of velocity on `(0, 3]`:
it returns `a` iff `0 < rv < 0.5`, `b` iff `0.5 ≤ rv < 1.3`, `c` iff
`1.3 ≤ rv ≤ 3`, and errors exactly when `rv ≤ 0` or `rv > 3`. -/
theorem get_gait_step_function (rv : ℝ) :
    (get_gait rv = Except.ok Gait.a ↔ 0 < rv ∧ rv < 0.5) ∧
    (get_gait rv = Except.ok Gait.b ↔ 0.5 ≤ rv ∧ rv < 1.3) ∧
    (get_gait rv = Except.ok Gait.c ↔ 1.3 ≤ rv ∧ rv ≤ 3) ∧
    ((rv ≤ 0 ∨ 3 < rv) ↔ ∃ e, get_gait rv = Except.error e) :=
  ⟨get_gait_eq_a_iff rv, get_gait_eq_b_iff rv, get_gait_eq_c_iff rv,
    (get_gait_error_iff rv).symm⟩

theorem even_parity_fix (n : ℤ) : Even (n + (if n % 2 = 1 then 1 else 0)) := by
  by_cases h : n % 2 = 1
  · have : Even (n + 1) := Odd.add_one (Int.odd_iff.mpr h)
    simpa [h] using this
  · have : Even n := by
      rcases Int.even_or_odd n with he | ho
      · exact he
      · exact absurd (Int.odd_iff.mp ho) h
    simpa [h] using this

/-- C9: for every valid combination of height, velocity, sample rate and
duration, the per-cycle sample count `nt` computed by `generate_segments`
is even: the final `nt += int(nt % 2 == 1)` forces evenness regardless of
what the preceding rounding produced. -/
theorem nt_of_even (height rv fs duration : ℝ)
    (hh : 0 < height) (hrv : 0 < rv) (hrv3 : rv ≤ 3)
    (hfs : 0 < fs) (hd : 0 < duration) :
    Even (nt_of height rv fs duration) := by
  unfold nt_of
  exact even_parity_fix _

/-- C9 witness: concrete valid parameters. -/
theorem nt_of_even_witness :
    (0 : ℝ) < 1.8 ∧ (0 : ℝ) < 1 ∧ (1 : ℝ) ≤ 3 ∧ (0 : ℝ) < 100 ∧
      (0 : ℝ) < 10 ∧ Even (nt_of 1.8 1 100 10) :=
  ⟨by norm_num, by norm_num, by norm_num, by norm_num, by norm_num,
    nt_of_even 1.8 1 100 10 (by norm_num) (by norm_num) (by norm_num)
      (by norm_num) (by norm_num)⟩

/-! ## Radar helpers (`src/radar_helpers.py`) -/

/-- A 3-vector, as used for positions, aspect vectors and the radar
location. -/
structure Vec3 where
  x : ℝ
  y : ℝ
  z : ℝ

/-- Componentwise difference of 3-vectors. -/
def sub3 (a b : Vec3) : Vec3 := ⟨a.x - b.x, a.y - b.y, a.z - b.z⟩

/-- Componentwise sum of 3-vectors. -/
def add3 (a b : Vec3) : Vec3 := ⟨a.x + b.x, a.y + b.y, a.z + b.z⟩

/-- Componentwise halving, for midpoints `(p+q)/2`. -/
noncomputable def half3 (a : Vec3) : Vec3 := ⟨a.x / 2, a.y / 2, a.z / 2⟩

/-- `np.dot` of two 3-vectors. -/
def dot3 (a b : Vec3) : ℝ := a.x * b.x + a.y * b.y + a.z * b.z

/-- `rcsellipsoid` (`radar_helpers.py` lines 46-50): closed-form RCS of an
ellipsoid with semi-axes `a, b, c` at viewing angles `phi, theta`. -/
noncomputable def rcsellipsoid (a b c phi theta : ℝ) : ℝ :=
  (Real.pi * a ^ 2 * b ^ 2 * c ^ 2) /
    (a ^ 2 * Real.sin theta ^ 2 * Real.cos phi ^ 2 +
      b ^ 2 * Real.sin theta ^ 2 * Real.sin phi ^ 2 +
      c ^ 2 * Real.cos theta ^ 2) ^ 2

/-- `sqrt(sum(v*v, 1))` of `radar_helpers.py` lines 64-65.  `sum` is the
Python BUILTIN (numpy is only imported as `np`), so its second argument `1`
is the start value of the summation, not an axis: the result is
`sqrt(1 + v.x² + v.y² + v.z²)`, not the Euclidean norm. -/
noncomputable def sum_sqrt (v : Vec3) : ℝ :=
  Real.sqrt (1 + v.x * v.x + v.y * v.y + v.z * v.z)

/-- `ThetaAngle` of `compute_ph` (`radar_helpers.py` line 66), with
`A = radarloc - position` and `B = aspct`. -/
noncomputable def theta_angle (A B : Vec3) : ℝ :=
  Real.arccos (dot3 A B / (sum_sqrt A * sum_sqrt B))

/-- `PhiAngle` of `compute_ph` (`radar_helpers.py` line 67). -/
noncomputable def phi_angle (position radarloc : Vec3) : ℝ :=
  Real.arcsin ((radarloc.y - position.y) /
    Real.sqrt (|position.x - radarloc.x| ^ 2 + |position.y - radarloc.y| ^ 2))

/-- `distances` of `compute_ph` (`radar_helpers.py` lines 56-58):
`r_dist = abs(position - radarloc)` componentwise, then the root of the sum
of squares. -/
noncomputable def compute_distances (position radarloc : Vec3) : ℝ :=
  Real.sqrt (|position.x - radarloc.x| ^ 2 + |position.y - radarloc.y| ^ 2 +
    |position.z - radarloc.z| ^ 2)

/-- `compute_ph` (`radar_helpers.py` lines 52-75): the complex return of an
ellipsoid at a given aspect and position, together with its range. -/
noncomputable def compute_ph (aspct position : Vec3) (ellipsoid : ℝ × ℝ × ℝ)
    (radarloc : Vec3) (lambda_ : ℝ) : ℂ × ℝ :=
  let distances := compute_distances position radarloc
  let ThetaAngle := theta_angle (sub3 radarloc position) aspct
  let PhiAngle := phi_angle position radarloc
  let rcs := rcsellipsoid ellipsoid.1 ellipsoid.2.1 ellipsoid.2.2 PhiAngle ThetaAngle
  let amp := Real.sqrt rcs
  ((amp : ℂ) * Complex.exp (-Complex.I * 4 * (Real.pi : ℂ) * (distances : ℝ) /
    (lambda_ : ℝ)), distances)

/-! ## Radar return simulator (`simulate_radar.py`) -/

/-- The nine body-part lengths of `_generate_segments`
(`generate_segments.py` lines 123-131, returned as the `lengths` dict,
lines 724-733). -/
structure SegLengths where
  headlen : ℝ
  shoulderlen : ℝ
  torsolen : ℝ
  hiplen : ℝ
  upperleglen : ℝ
  lowerleglen : ℝ
  footlen : ℝ
  upperarmlen : ℝ
  lowerarmlen : ℝ

/-- The `lengths` map produced by `_generate_segments` for a given height:
fixed anthropometric ratios (`generate_segments.py` lines 123-131). -/
noncomputable def lengths_of (height : ℝ) : SegLengths where
  headlen := 0.130 * height
  shoulderlen := 0.259 / 2 * height
  torsolen := 0.288 * height
  hiplen := 0.191 / 2 * height
  upperleglen := 0.245 * height
  lowerleglen := 0.246 * height
  footlen := 0.143 * height
  upperarmlen := 0.188 * height
  lowerarmlen := 0.152 * height

/-- The 17 landmark trajectories consumed by `simulate_radar`
(`simulate_radar.py` lines 58-74); `numpl = base.shape[0]` is the number of
time samples. -/
structure Segments where
  numpl : ℕ
  base : ℕ → Vec3
  neck : ℕ → Vec3
  head : ℕ → Vec3
  lshoulder : ℕ → Vec3
  rshoulder : ℕ → Vec3
  lelbow : ℕ → Vec3
  relbow : ℕ → Vec3
  lhand : ℕ → Vec3
  rhand : ℕ → Vec3
  lhip : ℕ → Vec3
  rhip : ℕ → Vec3
  lknee : ℕ → Vec3
  rknee : ℕ → Vec3
  lankle : ℕ → Vec3
  rankle : ℕ → Vec3
  ltoe : ℕ → Vec3
  rtoe : ℕ → Vec3

/-- The 16 per-part enable flags of the scattering configuration
(`simulate_radar.py` lines 76-95; default all true). -/
structure Config where
  head : Bool
  torso : Bool
  lshoulder : Bool
  rshoulder : Bool
  lupperarm : Bool
  rupperarm : Bool
  llowerarm : Bool
  rlowerarm : Bool
  lhip : Bool
  rhip : Bool
  lupperleg : Bool
  rupperleg : Bool
  llowerleg : Bool
  rlowerleg : Bool
  lfoot : Bool
  rfoot : Bool

/-- All 16 body-part flags disabled. -/
def allDisabled (c : Config) : Prop :=
  c.head = false ∧ c.torso = false ∧ c.lshoulder = false ∧ c.rshoulder = false ∧
  c.lupperarm = false ∧ c.rupperarm = false ∧ c.llowerarm = false ∧
  c.rlowerarm = false ∧ c.lhip = false ∧ c.rhip = false ∧ c.lupperleg = false ∧
  c.rupperleg = false ∧ c.llowerleg = false ∧ c.rlowerleg = false ∧
  c.lfoot = false ∧ c.rfoot = false

/-- One body part of the simulation loop: its enable flag, its aspect
vector, its scattering position and its ellipsoid semi-axes as functions of
the inputs, exactly as in the corresponding block of `simulate_radar.py`. -/
structure PartDesc where
  enabled : Config → Bool
  aspct : Segments → ℕ → Vec3
  pos : Segments → ℕ → Vec3
  ell : SegLengths → ℝ × ℝ × ℝ

/-- Head block (`simulate_radar.py` lines 107-112). -/
noncomputable def headPart : PartDesc where
  enabled := fun c => c.head
  aspct := fun s k => sub3 (s.head k) (s.neck k)
  pos := fun s k => s.head k
  ell := fun sl => (0.1, 0.1, sl.headlen / 2)

/-- Torso block (lines 114-120). -/
noncomputable def torsoPart : PartDesc where
  enabled := fun c => c.torso
  aspct := fun s k => sub3 (s.neck k) (s.base k)
  pos := fun s k => half3 (add3 (s.neck k) (s.base k))
  ell := fun sl => (0.15, 0.15, sl.torsolen / 2)

/-- Left shoulder block (lines 122-127). -/
noncomputable def lShoulderPart : PartDesc where
  enabled := fun c => c.lshoulder
  aspct := fun s k => sub3 (s.lshoulder k) (s.neck k)
  pos := fun s k => s.lshoulder k
  ell := fun sl => (0.06, 0.06, sl.shoulderlen / 2)

/-- Right shoulder block (lines 129-134). -/
noncomputable def rShoulderPart : PartDesc where
  enabled := fun c => c.rshoulder
  aspct := fun s k => sub3 (s.rshoulder k) (s.neck k)
  pos := fun s k => s.rshoulder k
  ell := fun sl => (0.06, 0.06, sl.shoulderlen / 2)

/-- Left upper-arm block (lines 136-142).  Its ellipsoid long semi-axis is
`upperarmlen/2` where `upperarmlen = seglength['Upper Leg Length']`
(`simulate_radar.py` line 55 reads the upper-LEG entry). -/
noncomputable def lUpperArmPart : PartDesc where
  enabled := fun c => c.lupperarm
  aspct := fun s k => sub3 (s.lshoulder k) (s.lelbow k)
  pos := fun s k => half3 (add3 (s.lshoulder k) (s.lelbow k))
  ell := fun sl => (0.06, 0.06, sl.upperleglen / 2)

/-- Right upper-arm block (lines 144-150); same `upperarmlen` binding from
line 55. -/
noncomputable def rUpperArmPart : PartDesc where
  enabled := fun c => c.rupperarm
  aspct := fun s k => sub3 (s.rshoulder k) (s.relbow k)
  pos := fun s k => half3 (add3 (s.rshoulder k) (s.relbow k))
  ell := fun sl => (0.06, 0.06, sl.upperleglen / 2)

/-- Left lower-arm block (lines 152-157). -/
noncomputable def lLowerArmPart : PartDesc where
  enabled := fun c => c.llowerarm
  aspct := fun s k => sub3 (s.lelbow k) (s.lhand k)
  pos := fun s k => s.lhand k
  ell := fun sl => (0.05, 0.05, sl.lowerarmlen / 2)

/-- Right lower-arm block (lines 159-164). -/
noncomputable def rLowerArmPart : PartDesc where
  enabled := fun c => c.rlowerarm
  aspct := fun s k => sub3 (s.relbow k) (s.rhand k)
  pos := fun s k => s.rhand k
  ell := fun sl => (0.05, 0.05, sl.lowerarmlen / 2)

/-- Left hip block (lines 166-171). -/
noncomputable def lHipPart : PartDesc where
  enabled := fun c => c.lhip
  aspct := fun s k => sub3 (s.lhip k) (s.base k)
  pos := fun s k => s.lhip k
  ell := fun sl => (0.07, 0.07, sl.hiplen / 2)

/-- Right hip block (lines 173-178). -/
noncomputable def rHipPart : PartDesc where
  enabled := fun c => c.rhip
  aspct := fun s k => sub3 (s.rhip k) (s.base k)
  pos := fun s k => s.rhip k
  ell := fun sl => (0.07, 0.07, sl.hiplen / 2)

/-- Left upper-leg block (lines 180-186). -/
noncomputable def lUpperLegPart : PartDesc where
  enabled := fun c => c.lupperleg
  aspct := fun s k => sub3 (s.lknee k) (s.lhip k)
  pos := fun s k => half3 (add3 (s.lhip k) (s.lknee k))
  ell := fun sl => (0.07, 0.07, sl.upperleglen / 2)

/-- Right upper-leg block (lines 188-194). -/
noncomputable def rUpperLegPart : PartDesc where
  enabled := fun c => c.rupperleg
  aspct := fun s k => sub3 (s.rknee k) (s.rhip k)
  pos := fun s k => half3 (add3 (s.rhip k) (s.rknee k))
  ell := fun sl => (0.07, 0.07, sl.upperleglen / 2)

/-- Left lower-leg block (lines 196-202). -/
noncomputable def lLowerLegPart : PartDesc where
  enabled := fun c => c.llowerleg
  aspct := fun s k => sub3 (s.lankle k) (s.lknee k)
  pos := fun s k => half3 (add3 (s.lankle k) (s.lknee k))
  ell := fun sl => (0.06, 0.06, sl.lowerleglen / 2)

/-- Right lower-leg block (lines 204-210). -/
noncomputable def rLowerLegPart : PartDesc where
  enabled := fun c => c.rlowerleg
  aspct := fun s k => sub3 (s.rankle k) (s.rknee k)
  pos := fun s k => half3 (add3 (s.rankle k) (s.rknee k))
  ell := fun sl => (0.06, 0.06, sl.lowerleglen / 2)

/-- Left foot block (lines 212-217). -/
noncomputable def lFootPart : PartDesc where
  enabled := fun c => c.lfoot
  aspct := fun s k => sub3 (s.lankle k) (s.ltoe k)
  pos := fun s k => s.ltoe k
  ell := fun sl => (0.05, 0.05, sl.footlen / 2)

/-- Right foot block (lines 219-224). -/
noncomputable def rFootPart : PartDesc where
  enabled := fun c => c.rfoot
  aspct := fun s k => sub3 (s.rankle k) (s.rtoe k)
  pos := fun s k => s.rtoe k
  ell := fun sl => (0.05, 0.05, sl.footlen / 2)

/-- The 16 body-part blocks of `simulate_radar`, in source order. -/
noncomputable def partList : List PartDesc :=
  [headPart, torsoPart, lShoulderPart, rShoulderPart, lUpperArmPart,
   rUpperArmPart, lLowerArmPart, rLowerArmPart, lHipPart, rHipPart,
   lUpperLegPart, rUpperLegPart, lLowerLegPart, rLowerLegPart, lFootPart,
   rFootPart]

/-- How a call to `simulate_radar` can fail: `np.zeros` with a negative
dimension raises `ValueError`; indexing `data[r_index, k]` outside the
array raises `IndexError`. -/
inductive RadarError where
  | valueError : RadarError
  | indexError : RadarError
deriving DecidableEq

/-- The range-time matrix contents, indexed `[range bin, pulse]`. -/
def Mat : Type := ℕ → ℕ → ℂ

/-- Add `v` into entry `(i, k)` of the matrix (`data[r_index,k] += ph`). -/
noncomputable def addAt (d : Mat) (i k : ℕ) (v : ℂ) : Mat :=
  fun i' k' => if i' = i ∧ k' = k then d i' k' + v else d i' k'

/-- `data[r_index, k] += ph` with numpy indexing semantics on the first
axis: an index in `[0, nr)` hits that row, an index in `[-nr, 0)` wraps to
`nr + index`, anything else raises `IndexError`. -/
noncomputable def writeBin (nr : ℤ) (k : ℕ) (r_index : ℤ) (v : ℂ) (d : Mat) :
    Except RadarError Mat :=
  if 0 ≤ r_index ∧ r_index < nr then Except.ok (addAt d r_index.toNat k v)
  else if -nr ≤ r_index ∧ r_index < 0 then
    Except.ok (addAt d (r_index + nr).toNat k v)
  else Except.error RadarError.indexError

/-- The inputs of `simulate_radar` (`simulate_radar.py` line 19). -/
structure RadarInput where
  seg : Segments
  sl : SegLengths
  lambda_ : ℝ
  rangeres : ℝ
  radarloc : Vec3
  cfg : Config

/-- The `(ph, distances)` pair `compute_ph` returns for one part at one
pulse. -/
noncomputable def partReturn (inp : RadarInput) (p : PartDesc) (k : ℕ) : ℂ × ℝ :=
  compute_ph (p.aspct inp.seg k) (p.pos inp.seg k) (p.ell inp.sl)
    inp.radarloc inp.lambda_

/-- One body-part block at pulse `k`: if enabled, compute the return, the
bin `r_index = int(np.floor(distances/rangeres))`, and accumulate. -/
noncomputable def processPart (inp : RadarInput) (nr : ℤ) (k : ℕ) (d : Mat)
    (p : PartDesc) : Except RadarError Mat :=
  if p.enabled inp.cfg then
    writeBin nr k ⌊(partReturn inp p k).2 / inp.rangeres⌋ (partReturn inp p k).1 d
  else Except.ok d

/-- One pulse of the simulation loop: the 16 part blocks in source order. -/
noncomputable def processPulse (inp : RadarInput) (nr : ℤ) (d : Mat) (k : ℕ) :
    Except RadarError Mat :=
  List.foldlM (processPart inp nr k) d partList

/-- `nr = round(2*np.sqrt(x²+y²+z²)/rangeres)` (`simulate_radar.py`
line 99). -/
noncomputable def nr_of (radarloc : Vec3) (rangeres : ℝ) : ℤ :=
  npround (2 * Real.sqrt (radarloc.x ^ 2 + radarloc.y ^ 2 + radarloc.z ^ 2) /
    rangeres)

/-- The result of a successful `simulate_radar` call: the allocated matrix
dimensions (lines 99-104) and its contents. -/
structure SimResult where
  nr : ℤ
  numpl : ℕ
  data : Mat

/-- `simulate_radar` (`simulate_radar.py` lines 19-226): allocate the
`nr × numpl` complex matrix and run the pulse loop. -/
noncomputable def simulate_radar (inp : RadarInput) : Except RadarError SimResult :=
  let nr := nr_of inp.radarloc inp.rangeres
  if nr < 0 then Except.error RadarError.valueError
  else
    match List.foldlM (processPulse inp nr) (fun _ _ => (0 : ℂ))
        (List.range inp.seg.numpl) with
    | Except.ok d => Except.ok ⟨nr, inp.seg.numpl, d⟩
    | Except.error e => Except.error e

theorem except_bind_ok {ε α β : Type _} (a : α) (f : α → Except ε β) :
    (Except.ok a >>= f) = f a := rfl

theorem except_bind_error {ε α β : Type _} (e : ε) (f : α → Except ε β) :
    ((Except.error e : Except ε α) >>= f) = Except.error e := rfl

theorem foldlM_ok_of_mem {ε α β : Type _} (g : β → α → Except ε β) :
    ∀ (l : List α) (d d' : β), List.foldlM g d l = Except.ok d' →
      ∀ x ∈ l, ∃ d₁ d₂, g d₁ x = Except.ok d₂ := by
  intro l
  induction l with
  | nil =>
      intro d d' _ x hx
      exact absurd hx (List.not_mem_nil x)
  | cons y ys ih =>
      intro d d' h x hx
      rw [List.foldlM_cons] at h
      rcases hgy : g d y with e | d₁
      · rw [hgy, except_bind_error] at h
        exact absurd h (by simp)
      · rw [hgy, except_bind_ok] at h
        rcases List.mem_cons.mp hx with rfl | hx2
        · exact ⟨d, d₁, hgy⟩
        · exact ih d₁ d' h x hx2

theorem foldlM_ne_error {ε α β : Type _} (g : β → α → Except ε β) (b : ε)
    (hg : ∀ d x, g d x ≠ Except.error b) :
    ∀ (l : List α) (d : β), List.foldlM g d l ≠ Except.error b := by
  intro l
  induction l with
  | nil =>
      intro d h
      rw [List.foldlM_nil] at h
      exact absurd h (by simp [pure, Except.pure])
  | cons y ys ih =>
      intro d h
      rw [List.foldlM_cons] at h
      rcases hgy : g d y with e | d₁
      · rw [hgy, except_bind_error] at h
        injection h with he
        exact hg d y (by rw [hgy, he])
      · rw [hgy, except_bind_ok] at h
        exact ih d₁ h

theorem foldlM_ok_id {ε α β : Type _} (g : β → α → Except ε β) :
    ∀ (l : List α) (d : β), (∀ d x, x ∈ l → g d x = Except.ok d) →
      List.foldlM g d l = Except.ok d := by
  intro l
  induction l with
  | nil =>
      intro d _
      rfl
  | cons y ys ih =>
      intro d h
      rw [List.foldlM_cons, h d y (List.mem_cons_self y ys), except_bind_ok]
      exact ih d (fun d x hx => h d x (List.mem_cons_of_mem y hx))

theorem npround_nonneg {x : ℝ} (hx : 0 ≤ x) : 0 ≤ npround x := by
  unfold npround
  split_ifs with h1 h2
  · exact Int.floor_nonneg.mpr hx
  · have : 0 ≤ ⌊x⌋ := Int.floor_nonneg.mpr hx
    omega
  · rw [round_eq]
    exact Int.floor_nonneg.mpr (by linarith)

theorem npround_eq_of (x : ℝ) (n : ℤ) (hf : Int.fract x ≠ 1 / 2)
    (hr : round x = n) : npround x = n := by
  unfold npround
  rw [if_neg hf, hr]

theorem nr_of_nonneg (loc : Vec3) {rr : ℝ} (h : 0 < rr) : 0 ≤ nr_of loc rr :=
  npround_nonneg (div_nonneg (by positivity) h.le)

theorem compute_ph_snd_nonneg (aspct position : Vec3) (e : ℝ × ℝ × ℝ)
    (radarloc : Vec3) (l : ℝ) : 0 ≤ (compute_ph aspct position e radarloc l).2 :=
  Real.sqrt_nonneg _

theorem processPart_ne_valueError (inp : RadarInput) (nr : ℤ) (k : ℕ)
    (d : Mat) (p : PartDesc) :
    processPart inp nr k d p ≠ Except.error RadarError.valueError := by
  unfold processPart writeBin
  split_ifs <;> simp

theorem processPulse_ne_valueError (inp : RadarInput) (nr : ℤ) (d : Mat)
    (k : ℕ) : processPulse inp nr d k ≠ Except.error RadarError.valueError := by
  unfold processPulse
  exact foldlM_ne_error _ _ (fun d p => processPart_ne_valueError inp nr k d p)
    partList d

/-- C5: in `simulate_radar`, the Left and Right Upper Arm ellipsoids take
their long semi-axis from half the `'Upper Leg Length'` entry of the
segment-lengths map — which `generate_segments` fills with `0.245*height` —
not from half the `'Upper Arm Length'` entry, because line 55 binds
`upperarmlen = seglength['Upper Leg Length']`. -/
theorem upper_arm_ellipsoid_reads_upper_leg_length (height : ℝ)
    (hh : 0 < height) :
    (lUpperArmPart.ell (lengths_of height)).2.2 =
      (lengths_of height).upperleglen / 2 ∧
    (rUpperArmPart.ell (lengths_of height)).2.2 =
      (lengths_of height).upperleglen / 2 ∧
    (lengths_of height).upperleglen = 0.245 * height ∧
    (lUpperArmPart.ell (lengths_of height)).2.2 ≠
      (lengths_of height).upperarmlen / 2 ∧
    (rUpperArmPart.ell (lengths_of height)).2.2 ≠
      (lengths_of height).upperarmlen / 2 := by
  refine ⟨rfl, rfl, rfl, ?_, ?_⟩ <;>
    · show (0.245 * height) / 2 ≠ (0.188 * height) / 2
      intro he
      linarith

/-- C5 witness: at height 1.8 the upper-arm semi-axis differs from half the
upper-arm length. -/
theorem upper_arm_ellipsoid_reads_upper_leg_length_witness :
    (0 : ℝ) < 1.8 ∧
    (lUpperArmPart.ell (lengths_of 1.8)).2.2 ≠
      (lengths_of 1.8).upperarmlen / 2 :=
  ⟨by norm_num,
    (upper_arm_ellipsoid_reads_upper_leg_length 1.8 (by norm_num)).2.2.2.1⟩

/-- C7: whenever `simulate_radar` returns a matrix, it has
`round(2·|radarloc|/rangeres)` range-bin rows and one pulse column per time
sample of the input trajectories; and with every body-part flag disabled it
returns exactly that shape filled with zeros. -/
theorem simulate_radar_shape_and_all_disabled_zero (inp : RadarInput)
    (hrr : 0 < inp.rangeres) :
    (∀ res, simulate_radar inp = Except.ok res →
      res.nr = npround (2 * Real.sqrt (inp.radarloc.x ^ 2 + inp.radarloc.y ^ 2 +
        inp.radarloc.z ^ 2) / inp.rangeres) ∧
      res.numpl = inp.seg.numpl) ∧
    (allDisabled inp.cfg →
      simulate_radar inp =
        Except.ok ⟨nr_of inp.radarloc inp.rangeres, inp.seg.numpl,
          fun _ _ => 0⟩) := by
  have hnr : ¬ nr_of inp.radarloc inp.rangeres < 0 :=
    not_lt.mpr (nr_of_nonneg inp.radarloc hrr)
  constructor
  · intro res hres
    unfold simulate_radar at hres
    rw [if_neg hnr] at hres
    rcases hfold : List.foldlM (processPulse inp (nr_of inp.radarloc inp.rangeres))
        (fun _ _ => (0 : ℂ)) (List.range inp.seg.numpl) with e | d
    · rw [hfold] at hres
      exact absurd hres (by simp)
    · rw [hfold] at hres
      injection hres with hres2
      rw [← hres2]
      exact ⟨rfl, rfl⟩
  · intro hall
    obtain ⟨h1, h2, h3, h4, h5, h6, h7, h8, h9, h10, h11, h12, h13, h14, h15,
      h16⟩ := hall
    have hpart : ∀ (k : ℕ) (d : Mat) (p : PartDesc), p ∈ partList →
        processPart inp (nr_of inp.radarloc inp.rangeres) k d p = Except.ok d := by
      intro k d p hp
      simp only [partList, List.mem_cons, List.not_mem_nil, or_false] at hp
      rcases hp with rfl | rfl | rfl | rfl | rfl | rfl | rfl | rfl | rfl | rfl |
        rfl | rfl | rfl | rfl | rfl | rfl <;>
        simp [processPart, headPart, torsoPart, lShoulderPart, rShoulderPart,
          lUpperArmPart, rUpperArmPart, lLowerArmPart, rLowerArmPart, lHipPart,
          rHipPart, lUpperLegPart, rUpperLegPart, lLowerLegPart, rLowerLegPart,
          lFootPart, rFootPart, h1, h2, h3, h4, h5, h6, h7, h8, h9, h10, h11,
          h12, h13, h14, h15, h16]
    have hstep : ∀ (d : Mat) (k : ℕ),
        processPulse inp (nr_of inp.radarloc inp.rangeres) d k = Except.ok d := by
      intro d k
      unfold processPulse
      exact foldlM_ok_id _ partList d (fun d p hp => hpart k d p hp)
    unfold simulate_radar
    rw [if_neg hnr,
      foldlM_ok_id _ (List.range inp.seg.numpl) (fun _ _ => (0 : ℂ))
        (fun d k _ => hstep d k)]

/-- C7 witness: an all-disabled configuration at radar distance 1 and range
resolution 1 yields the 2-row zero matrix. -/
theorem simulate_radar_shape_and_all_disabled_zero_witness :
    (0 : ℝ) < 1 ∧
    simulate_radar
        ⟨⟨0, fun _ => ⟨0, 0, 0⟩, fun _ => ⟨0, 0, 0⟩, fun _ => ⟨0, 0, 0⟩,
          fun _ => ⟨0, 0, 0⟩, fun _ => ⟨0, 0, 0⟩, fun _ => ⟨0, 0, 0⟩,
          fun _ => ⟨0, 0, 0⟩, fun _ => ⟨0, 0, 0⟩, fun _ => ⟨0, 0, 0⟩,
          fun _ => ⟨0, 0, 0⟩, fun _ => ⟨0, 0, 0⟩, fun _ => ⟨0, 0, 0⟩,
          fun _ => ⟨0, 0, 0⟩, fun _ => ⟨0, 0, 0⟩, fun _ => ⟨0, 0, 0⟩,
          fun _ => ⟨0, 0, 0⟩, fun _ => ⟨0, 0, 0⟩⟩,
         lengths_of 1.8, 1, 1, ⟨0, 1, 0⟩,
         ⟨false, false, false, false, false, false, false, false, false, false,
          false, false, false, false, false, false⟩⟩ =
      Except.ok ⟨nr_of ⟨0, 1, 0⟩ 1, 0, fun _ _ => 0⟩ :=
  ⟨by norm_num,
    (simulate_radar_shape_and_all_disabled_zero _ (by norm_num)).2
      ⟨rfl, rfl, rfl, rfl, rfl, rfl, rfl, rfl, rfl, rfl, rfl, rfl, rfl, rfl,
        rfl, rfl⟩⟩

/-- C6: the range-bin index of each enabled part at each pulse is
`floor(range/rangeres)`; a nonnegative index is either written exactly at
that bin or, when it reaches the allocated bin count, raises an
index-out-of-range error — never clamped, wrapped or dropped — and any such
out-of-bounds part makes the whole `simulate_radar` call fail with
`IndexError`. -/
theorem simulate_radar_out_of_range_fails (inp : RadarInput)
    (hrr : 0 < inp.rangeres)
    (hbad : ∃ k, k < inp.seg.numpl ∧ ∃ p ∈ partList,
      p.enabled inp.cfg = true ∧
      nr_of inp.radarloc inp.rangeres ≤
        ⌊(partReturn inp p k).2 / inp.rangeres⌋) :
    simulate_radar inp = Except.error RadarError.indexError ∧
    (∀ (nr : ℤ) (d : Mat) (k : ℕ) (i : ℤ) (v : ℂ), 0 ≤ i →
      writeBin nr k i v d =
        if i < nr then Except.ok (addAt d i.toNat k v)
        else Except.error RadarError.indexError) := by
  have hwrite : ∀ (nr : ℤ) (d : Mat) (k : ℕ) (i : ℤ) (v : ℂ), 0 ≤ i →
      writeBin nr k i v d =
        if i < nr then Except.ok (addAt d i.toNat k v)
        else Except.error RadarError.indexError := by
    intro nr d k i v hi
    unfold writeBin
    by_cases h : i < nr
    · rw [if_pos ⟨hi, h⟩, if_pos h]
    · rw [if_neg (fun hc => h hc.2), if_neg (fun hc => absurd hc.2 (not_lt.mpr hi)),
        if_neg h]
  refine ⟨?_, hwrite⟩
  obtain ⟨k, hk, p, hp, hen, hge⟩ := hbad
  have hnr0 : 0 ≤ nr_of inp.radarloc inp.rangeres := nr_of_nonneg inp.radarloc hrr
  unfold simulate_radar
  rw [if_neg (not_lt.mpr hnr0)]
  rcases hfold : List.foldlM (processPulse inp (nr_of inp.radarloc inp.rangeres))
      (fun _ _ => (0 : ℂ)) (List.range inp.seg.numpl) with e | d
  · have hne : e ≠ RadarError.valueError := by
      intro hev
      exact foldlM_ne_error _ _
        (fun d k => processPulse_ne_valueError inp _ d k)
        (List.range inp.seg.numpl) _ (by rw [hfold, hev])
    cases e
    · exact absurd rfl hne
    · rfl
  · exfalso
    obtain ⟨d₁, d₂, hstep⟩ := foldlM_ok_of_mem _ _ _ _ hfold k
      (List.mem_range.mpr hk)
    unfold processPulse at hstep
    obtain ⟨e₁, e₂, hps⟩ := foldlM_ok_of_mem _ _ _ _ hstep p hp
    unfold processPart at hps
    rw [hen] at hps
    simp only [if_true] at hps
    have hidx0 : 0 ≤ ⌊(partReturn inp p k).2 / inp.rangeres⌋ :=
      Int.floor_nonneg.mpr (div_nonneg (compute_ph_snd_nonneg _ _ _ _ _) hrr.le)
    rw [hwrite _ _ _ _ _ hidx0, if_neg (not_lt.mpr hge)] at hps
    exact absurd hps (by simp)

/-- The landmark trajectories used in the C6 witness: the head is 99 m past
the radar, every other landmark sits at the origin. -/
noncomputable def farHeadSegments : Segments where
  numpl := 1
  base := fun _ => ⟨0, 0, 0⟩
  neck := fun _ => ⟨0, 0, 0⟩
  head := fun _ => ⟨0, 100, 0⟩
  lshoulder := fun _ => ⟨0, 0, 0⟩
  rshoulder := fun _ => ⟨0, 0, 0⟩
  lelbow := fun _ => ⟨0, 0, 0⟩
  relbow := fun _ => ⟨0, 0, 0⟩
  lhand := fun _ => ⟨0, 0, 0⟩
  rhand := fun _ => ⟨0, 0, 0⟩
  lhip := fun _ => ⟨0, 0, 0⟩
  rhip := fun _ => ⟨0, 0, 0⟩
  lknee := fun _ => ⟨0, 0, 0⟩
  rknee := fun _ => ⟨0, 0, 0⟩
  lankle := fun _ => ⟨0, 0, 0⟩
  rankle := fun _ => ⟨0, 0, 0⟩
  ltoe := fun _ => ⟨0, 0, 0⟩
  rtoe := fun _ => ⟨0, 0, 0⟩

/-- The C6 witness input: head enabled only, radar at `(0,1,0)`, range
resolution 1 m, so the head's range 99 m exceeds the 2 allocated bins. -/
noncomputable def farHeadInput : RadarInput where
  seg := farHeadSegments
  sl := lengths_of 1.8
  lambda_ := 1
  rangeres := 1
  radarloc := ⟨0, 1, 0⟩
  cfg := ⟨true, false, false, false, false, false, false, false, false, false,
    false, false, false, false, false, false⟩

theorem farHead_distance : (partReturn farHeadInput headPart 0).2 = 99 := by
  show compute_distances ⟨0, 100, 0⟩ ⟨0, 1, 0⟩ = 99
  unfold compute_distances
  rw [show |(0 : ℝ) - 0| ^ 2 + |(100 : ℝ) - 1| ^ 2 + |(0 : ℝ) - 0| ^ 2 =
    99 ^ 2 by norm_num]
  exact Real.sqrt_sq (by norm_num)

theorem nr_of_unit_radar : nr_of ⟨0, 1, 0⟩ 1 = 2 := by
  show npround (2 * Real.sqrt ((0 : ℝ) ^ 2 + 1 ^ 2 + 0 ^ 2) / 1) = 2
  rw [show (0 : ℝ) ^ 2 + 1 ^ 2 + 0 ^ 2 = 1 by norm_num, Real.sqrt_one]
  refine npround_eq_of _ _ ?_ ?_
  · rw [show (2 : ℝ) * 1 / 1 = 2 by norm_num]
    rw [Int.fract]
    norm_num
  · rw [round_eq]
    norm_num

/-- C6 witness: with only the head enabled at range 99 m and 2 allocated
bins, `simulate_radar` fails with the index error. -/
theorem simulate_radar_out_of_range_fails_witness :
    simulate_radar farHeadInput = Except.error RadarError.indexError ∧
    (∀ (nr : ℤ) (d : Mat) (k : ℕ) (i : ℤ) (v : ℂ), 0 ≤ i →
      writeBin nr k i v d =
        if i < nr then Except.ok (addAt d i.toNat k v)
        else Except.error RadarError.indexError) :=
  simulate_radar_out_of_range_fails farHeadInput
    (by show (0 : ℝ) < 1; norm_num)
    ⟨0, by show (0 : ℕ) < 1; norm_num, headPart, by simp [partList], rfl, by
      rw [farHead_distance]
      rw [show nr_of farHeadInput.radarloc farHeadInput.rangeres =
        nr_of ⟨0, 1, 0⟩ 1 from rfl, nr_of_unit_radar]
      rw [show (99 : ℝ) / farHeadInput.rangeres = (99 : ℝ) / 1 from rfl]
      norm_num⟩

/-- Modelled from the spec: the elevation angle the spec asks for, the angle
between the line-of-sight vector `A` and the aspect vector `B` via the
dot-product/arccos formula with true Euclidean norms. -/
noncomputable def spec_theta_angle (A B : Vec3) : ℝ :=
  Real.arccos (dot3 A B / (Real.sqrt (dot3 A A) * Real.sqrt (dot3 B B)))

/-- C3: at `aspct = (1,0,0)`, `position = (0,0,0)`, `radarloc = (1,0,0)`
the elevation angle computed by the code is `arccos(1/2) = π/3`, while the
angle between the line-of-sight vector and the aspect vector (the
dot-product/arccos formula of the spec) is `arccos 1 = 0`: the builtin
`sum(A*A, 1)` adds a start value of 1 under each square root, so the code
does not divide by the product of the Euclidean norms. -/
theorem theta_angle_deviates_from_spec :
    theta_angle (sub3 ⟨1, 0, 0⟩ ⟨0, 0, 0⟩) ⟨1, 0, 0⟩ = Real.pi / 3 ∧
    spec_theta_angle (sub3 ⟨1, 0, 0⟩ ⟨0, 0, 0⟩) ⟨1, 0, 0⟩ = 0 ∧
    Real.pi / 3 ≠ 0 := by
  have hA : sub3 ⟨1, 0, 0⟩ ⟨0, 0, 0⟩ = (⟨1, 0, 0⟩ : Vec3) := by
    simp [sub3]
  have hd : dot3 ⟨1, 0, 0⟩ ⟨1, 0, 0⟩ = 1 := by norm_num [dot3]
  have hs : sum_sqrt ⟨1, 0, 0⟩ = Real.sqrt 2 := by
    unfold sum_sqrt
    norm_num
  refine ⟨?_, ?_, ?_⟩
  · rw [hA]
    unfold theta_angle
    rw [hd, hs, Real.mul_self_sqrt (by norm_num : (0:ℝ) ≤ 2)]
    rw [show (1 : ℝ) / 2 = Real.cos (Real.pi / 3) from (Real.cos_pi_div_three).symm]
    exact Real.arccos_cos (by positivity) (by linarith [Real.pi_pos])
  · rw [hA]
    unfold spec_theta_angle
    rw [hd, Real.sqrt_one, mul_one, div_one]
    exact Real.arccos_one
  · positivity

/-- C4: `compute_ph` returns range equal to the Euclidean distance from the
position to the radar location, complex return exactly
`sqrt(RCS) * exp(-i·4π·range/λ)`, and its magnitude is exactly `sqrt(RCS)` —
no amplitude taper, propagation loss or other scaling. -/
theorem compute_ph_return_formula (aspct position : Vec3) (ellipsoid : ℝ × ℝ × ℝ)
    (radarloc : Vec3) (lambda_ : ℝ) :
    (compute_ph aspct position ellipsoid radarloc lambda_).2 =
      Real.sqrt ((position.x - radarloc.x) ^ 2 + (position.y - radarloc.y) ^ 2 +
        (position.z - radarloc.z) ^ 2) ∧
    (compute_ph aspct position ellipsoid radarloc lambda_).1 =
      (Real.sqrt (rcsellipsoid ellipsoid.1 ellipsoid.2.1 ellipsoid.2.2
          (phi_angle position radarloc)
          (theta_angle (sub3 radarloc position) aspct)) : ℂ) *
        Complex.exp (-Complex.I * 4 * (Real.pi : ℂ) *
          ((compute_ph aspct position ellipsoid radarloc lambda_).2 : ℝ) /
          (lambda_ : ℝ)) ∧
    Complex.abs (compute_ph aspct position ellipsoid radarloc lambda_).1 =
      Real.sqrt (rcsellipsoid ellipsoid.1 ellipsoid.2.1 ellipsoid.2.2
        (phi_angle position radarloc)
        (theta_angle (sub3 radarloc position) aspct)) := by
  refine ⟨?_, rfl, ?_⟩
  · show compute_distances position radarloc = _
    unfold compute_distances
    rw [sq_abs, sq_abs, sq_abs]
  · have habs : ∀ r t : ℝ, Complex.abs ((Real.sqrt r : ℂ) *
        Complex.exp (-Complex.I * 4 * (Real.pi : ℂ) * (t : ℝ) / (lambda_ : ℝ))) =
        Real.sqrt r := by
      intro r t
      rw [map_mul, Complex.abs_ofReal, abs_of_nonneg (Real.sqrt_nonneg _)]
      have harg : -Complex.I * 4 * (Real.pi : ℂ) * (t : ℝ) / (lambda_ : ℝ) =
          ((-(4 * Real.pi * t / lambda_) : ℝ) : ℂ) * Complex.I := by
        push_cast
        ring
      rw [harg, Complex.abs_exp_ofReal_mul_I, mul_one]
    exact habs _ _

/-! ## Kinematic segment builder: left/right anti-phase (C10) -/

/-- The half-cycle phase shift applied when assembling a left-side joint
angle sequence from a flex curve (`generate_segments.py` lines 431-432,
454-455, 485-486): `the[:nt/2] = flex[nt/2:nt]; the[nt/2:] = flex[:nt/2]`. -/
def half_shift (nt : ℕ) (flex : ℕ → ℝ) (i : ℕ) : ℝ :=
  if i < nt / 2 then flex (nt / 2 + i) else flex (i - nt / 2)

/-- Right-ankle joint angle sequence, `the = flexankle*np.pi/180`
(line 443). -/
noncomputable def rightAnkleThe (flexankle : ℕ → ℝ) (i : ℕ) : ℝ :=
  flexankle i * Real.pi / 180

/-- Left-ankle joint angle sequence (lines 431-432): the half-shifted curve
scaled by `π/180`. -/
noncomputable def leftAnkleThe (nt : ℕ) (flexankle : ℕ → ℝ) (i : ℕ) : ℝ :=
  half_shift nt flexankle i * Real.pi / 180

/-- Right-knee joint angle sequence, `the = flexknee*np.pi/(-180)`
(line 470). -/
noncomputable def rightKneeThe (flexknee : ℕ → ℝ) (i : ℕ) : ℝ :=
  flexknee i * Real.pi / (-180)

/-- Left-knee joint angle sequence (lines 454-455). -/
noncomputable def leftKneeThe (nt : ℕ) (flexknee : ℕ → ℝ) (i : ℕ) : ℝ :=
  half_shift nt flexknee i * Real.pi / (-180)

/-- Right-hip joint angle sequence, `the = flexhip*np.pi/180` (line 505). -/
noncomputable def rightHipThe (flexhip : ℕ → ℝ) (i : ℕ) : ℝ :=
  flexhip i * Real.pi / 180

/-- Left-hip joint angle sequence (lines 485-486). -/
noncomputable def leftHipThe (nt : ℕ) (flexhip : ℕ → ℝ) (i : ℕ) : ℝ :=
  half_shift nt flexhip i * Real.pi / 180

theorem half_shift_eq_mod (nt : ℕ) (f : ℕ → ℝ) (i : ℕ) (hev : Even nt)
    (hi : i < nt) : half_shift nt f i = f ((i + nt / 2) % nt) := by
  obtain ⟨m, hm⟩ := hev
  subst hm
  have hm2 : (m + m) / 2 = m := by omega
  unfold half_shift
  rw [hm2]
  by_cases h : i < m
  · rw [if_pos h, Nat.mod_eq_of_lt (by omega), Nat.add_comm]
  · rw [if_neg h]
    have hmod : (i + m) % (m + m) = i - m := by
      rw [Nat.mod_eq_sub_mod (by omega)]
      have : i + m - (m + m) = i - m := by omega
      rw [this]
      exact Nat.mod_eq_of_lt (by omega)
    rw [hmod]

/-- C10: for the ankle, knee and hip flex curves, the joint-angle sequence
applied to the left side equals the right-side sequence cyclically shifted
by exactly half a cycle (`nt/2` samples), at every sample index within a
cycle (the per-cycle sample count `nt` is even, claim C9). -/
theorem left_right_antiphase (nt : ℕ) (hev : Even nt)
    (flexankle flexknee flexhip : ℕ → ℝ) (i : ℕ) (hi : i < nt) :
    leftAnkleThe nt flexankle i = rightAnkleThe flexankle ((i + nt / 2) % nt) ∧
    leftKneeThe nt flexknee i = rightKneeThe flexknee ((i + nt / 2) % nt) ∧
    leftHipThe nt flexhip i = rightHipThe flexhip ((i + nt / 2) % nt) := by
  refine ⟨?_, ?_, ?_⟩
  · unfold leftAnkleThe rightAnkleThe
    rw [half_shift_eq_mod nt flexankle i hev hi]
  · unfold leftKneeThe rightKneeThe
    rw [half_shift_eq_mod nt flexknee i hev hi]
  · unfold leftHipThe rightHipThe
    rw [half_shift_eq_mod nt flexhip i hev hi]

/-- C10 witness: `nt = 4`, sample 1 of the left side reads sample 3 of the
right side. -/
theorem left_right_antiphase_witness :
    Even 4 ∧ 1 < 4 ∧
    (leftAnkleThe 4 (fun n => (n : ℝ)) 1 =
        rightAnkleThe (fun n => (n : ℝ)) ((1 + 4 / 2) % 4) ∧
      leftKneeThe 4 (fun n => (n : ℝ)) 1 =
        rightKneeThe (fun n => (n : ℝ)) ((1 + 4 / 2) % 4) ∧
      leftHipThe 4 (fun n => (n : ℝ)) 1 =
        rightHipThe (fun n => (n : ℝ)) ((1 + 4 / 2) % 4)) :=
  ⟨by decide, by decide,
    left_right_antiphase 4 (by decide) _ _ _ 1 (by decide)⟩

/-! ## Kinematic segment builder: Base along-track trajectory (C8) -/

/-- `aa`, the fore/aft translation amplitude (`generate_segments.py` lines
183-186): velocity-quadratic for gait a, `-0.021` otherwise. -/
noncomputable def aa_of (gait : Gait) (rv : ℝ) : ℝ :=
  match gait with
  | Gait.a => -0.084 * rv ^ 2 + 0.084 * rv
  | Gait.b => -0.021
  | Gait.c => -0.021

/-- `dc = rlc/rv`, duration of a cycle (line 144). -/
noncomputable def dc_of (rv : ℝ) : ℝ := rlc_of rv / rv

/-- `dsmod = ds/dc` with `ds = 0.752*dc-0.143` (lines 145-146). -/
noncomputable def dsmod_of (rv : ℝ) : ℝ := (0.752 * dc_of rv - 0.143) / dc_of rv

/-- `phia = 0.625-dsmod` (line 187). -/
noncomputable def phia_of (rv : ℝ) : ℝ := 0.625 - dsmod_of rv

/-- Sample `i` of `transforback = aa*np.sin(2*np.pi*(2*t+2*phia))`
(line 188) at `t i = i/nt` (the `np.linspace(0, 1-1/nt, nt)` grid of line
151). -/
noncomputable def transforback (gait : Gait) (rv : ℝ) (nt : ℕ) (i : ℕ) : ℝ :=
  aa_of gait rv * Real.sin (2 * Real.pi * (2 * ((i : ℝ) / (nt : ℝ)) +
    2 * phia_of rv))

/-- Sample `i` of the forward-motion offset
`np.linspace(0, rlc-rlc/(nt+1), nt)` added to the x-coordinates
(line 679). -/
noncomputable def fwd_offset (rv : ℝ) (nt : ℕ) (i : ℕ) : ℝ :=
  (i : ℝ) * ((rlc_of rv - rlc_of rv / ((nt : ℝ) + 1)) / ((nt : ℝ) - 1))

/-- The along-track (x) coordinate of the Base landmark within cycle 0:
`base` starts at zero (line 656), gains `transforback` in x (line 659) and,
with forward motion, the linspace offset (line 679). -/
noncomputable def basex0 (gait : Gait) (rv : ℝ) (nt : ℕ) (fm : Bool) (i : ℕ) : ℝ :=
  transforback gait rv nt i + (if fm then fwd_offset rv nt i else 0)

/-- The along-track coordinate of the Base landmark at global sample `j`:
the replication loop (lines 716-721) appends a copy of the cycle and, with
forward motion, adds `rlc` to its x-coordinate once per cycle, so sample
`j = c*nt + i` reads cycle-0 sample `i` shifted by `c*rlc`. -/
noncomputable def basex (gait : Gait) (rv : ℝ) (nt : ℕ) (fm : Bool) (j : ℕ) : ℝ :=
  basex0 gait rv nt fm (j % nt) +
    (if fm then ((j / nt : ℕ) : ℝ) * rlc_of rv else 0)

theorem abs_sin_sub_sin_le (x y : ℝ) :
    |Real.sin x - Real.sin y| ≤ |x - y| := by
  rw [Real.sin_sub_sin, abs_mul, abs_mul]
  have h1 : |Real.sin ((x - y) / 2)| ≤ |(x - y) / 2| := Real.abs_sin_le_abs
  have h2 : |Real.cos ((x + y) / 2)| ≤ 1 := Real.abs_cos_le_one _
  have h3 : |(2 : ℝ)| = 2 := by norm_num
  have h4 : |(x - y) / 2| = |x - y| / 2 := by
    rw [abs_div]
    norm_num
  calc |(2 : ℝ)| * |Real.sin ((x - y) / 2)| * |Real.cos ((x + y) / 2)|
      ≤ |(2 : ℝ)| * |(x - y) / 2| * 1 := by
        apply mul_le_mul
        · exact mul_le_mul_of_nonneg_left h1 (abs_nonneg _)
        · exact h2
        · exact abs_nonneg _
        · positivity
    _ = |x - y| := by
        rw [h3, h4]
        ring

theorem rlc_nonneg (rv : ℝ) : 0 ≤ rlc_of rv := by
  unfold rlc_of
  positivity

/-- The key velocity bound: for an auto-selected gait, `4π·|aa| ≤ rlc`. -/
theorem aa_rlc_bound (g : Gait) (rv : ℝ) (hg : get_gait rv = Except.ok g) :
    4 * Real.pi * |aa_of g rv| ≤ rlc_of rv := by
  have hpi : Real.pi ≤ 3.15 := Real.pi_lt_d2.le
  have hpi0 : 0 < Real.pi := Real.pi_pos
  cases g with
  | a =>
      obtain ⟨h0, h5⟩ := (get_gait_eq_a_iff rv).mp hg
      have haa : aa_of Gait.a rv = -0.084 * rv ^ 2 + 0.084 * rv := rfl
      have haann : 0 ≤ -0.084 * rv ^ 2 + 0.084 * rv := by nlinarith
      rw [haa, abs_of_nonneg haann]
      have hs := Real.sqrt_nonneg rv
      have hsq : Real.sqrt rv * Real.sqrt rv = rv := Real.mul_self_sqrt h0.le
      have hsle : Real.sqrt rv ≤ 0.71 := by
        have h1 : Real.sqrt rv ≤ Real.sqrt 0.5041 :=
          Real.sqrt_le_sqrt (by linarith)
        have h2 : Real.sqrt 0.5041 = 0.71 := by
          rw [show (0.5041 : ℝ) = 0.71 ^ 2 by norm_num]
          exact Real.sqrt_sq (by norm_num)
        linarith
      unfold rlc_of
      nlinarith [mul_nonneg hs hs, mul_nonneg (mul_nonneg hs hs) hs,
        mul_nonneg hpi0.le hs, sq_nonneg (Real.sqrt rv),
        mul_le_mul_of_nonneg_left hpi (mul_nonneg hs hs),
        mul_nonneg (mul_nonneg hpi0.le hs) hs]
  | b =>
      obtain ⟨h0, h13⟩ := (get_gait_eq_b_iff rv).mp hg
      have haa : aa_of Gait.b rv = -0.021 := rfl
      rw [haa, abs_of_nonpos (by norm_num)]
      have hsge : (0.7 : ℝ) ≤ Real.sqrt rv := by
        have h1 : Real.sqrt 0.49 ≤ Real.sqrt rv :=
          Real.sqrt_le_sqrt (by linarith)
        have h2 : Real.sqrt 0.49 = 0.7 := by
          rw [show (0.49 : ℝ) = 0.7 ^ 2 by norm_num]
          exact Real.sqrt_sq (by norm_num)
        linarith
      unfold rlc_of
      nlinarith
  | c =>
      obtain ⟨h0, h3⟩ := (get_gait_eq_c_iff rv).mp hg
      have haa : aa_of Gait.c rv = -0.021 := rfl
      rw [haa, abs_of_nonpos (by norm_num)]
      have hsge : (1.1 : ℝ) ≤ Real.sqrt rv := by
        have h1 : Real.sqrt 1.21 ≤ Real.sqrt rv :=
          Real.sqrt_le_sqrt (by linarith)
        have h2 : Real.sqrt 1.21 = 1.1 := by
          rw [show (1.21 : ℝ) = 1.1 ^ 2 by norm_num]
          exact Real.sqrt_sq (by norm_num)
        linarith
      unfold rlc_of
      nlinarith

theorem basex0_step (g : Gait) (rv : ℝ) (nt : ℕ)
    (hg : get_gait rv = Except.ok g) (hnt : 2 ≤ nt) (i : ℕ) (hi : i + 1 < nt) :
    basex0 g rv nt true i ≤ basex0 g rv nt true (i + 1) := by
  have hN : (2 : ℝ) ≤ (nt : ℝ) := by exact_mod_cast hnt
  have hN0 : (0 : ℝ) < (nt : ℝ) := by linarith
  have hN1 : (0 : ℝ) < (nt : ℝ) - 1 := by linarith
  have hN2 : (0 : ℝ) < (nt : ℝ) + 1 := by linarith
  have hrlc := rlc_nonneg rv
  have hkey := aa_rlc_bound g rv hg
  unfold basex0 transforback
  simp only [eq_self_iff_true, if_true]
  set A := aa_of g rv with hA
  set th1 := 2 * Real.pi * (2 * ((i : ℝ) / (nt : ℝ)) + 2 * phia_of rv) with hth1
  set th2 := 2 * Real.pi * (2 * (((i + 1 : ℕ) : ℝ) / (nt : ℝ)) + 2 * phia_of rv)
    with hth2
  have hdth : th2 - th1 = 4 * Real.pi / (nt : ℝ) := by
    rw [hth1, hth2]
    push_cast
    field_simp
    ring
  have habs : |A * (Real.sin th2 - Real.sin th1)| ≤
      |A| * (4 * Real.pi / (nt : ℝ)) := by
    rw [abs_mul]
    apply mul_le_mul_of_nonneg_left _ (abs_nonneg A)
    have h2 := abs_sin_sub_sin_le th2 th1
    rw [hdth] at h2
    calc |Real.sin th2 - Real.sin th1| ≤ |4 * Real.pi / (nt : ℝ)| := h2
      _ = 4 * Real.pi / (nt : ℝ) := abs_of_nonneg (by positivity)
  have htf : A * Real.sin th2 - A * Real.sin th1 ≥
      -(|A| * (4 * Real.pi / (nt : ℝ))) := by
    have haux : A * Real.sin th2 - A * Real.sin th1 =
        A * (Real.sin th2 - Real.sin th1) := by ring
    have hna := neg_abs_le (A * (Real.sin th2 - Real.sin th1))
    linarith [haux, hna, habs]
  have hfwd : fwd_offset rv nt (i + 1) - fwd_offset rv nt i ≥
      rlc_of rv / (nt : ℝ) := by
    have he : fwd_offset rv nt (i + 1) - fwd_offset rv nt i =
        (rlc_of rv - rlc_of rv / ((nt : ℝ) + 1)) / ((nt : ℝ) - 1) := by
      unfold fwd_offset
      push_cast
      ring
    have he2 : (rlc_of rv - rlc_of rv / ((nt : ℝ) + 1)) / ((nt : ℝ) - 1) -
        rlc_of rv / (nt : ℝ) =
        rlc_of rv / ((nt : ℝ) * ((nt : ℝ) + 1) * ((nt : ℝ) - 1)) := by
      field_simp
      ring
    have hpos : 0 ≤ rlc_of rv / ((nt : ℝ) * ((nt : ℝ) + 1) * ((nt : ℝ) - 1)) := by
      positivity
    linarith [he, he2, hpos]
  have hdivkey : |A| * (4 * Real.pi / (nt : ℝ)) ≤ rlc_of rv / (nt : ℝ) := by
    rw [show |A| * (4 * Real.pi / (nt : ℝ)) =
      (4 * Real.pi * |A|) / (nt : ℝ) by ring]
    exact (div_le_div_iff_of_pos_right hN0).mpr hkey
  linarith [htf, hfwd, hdivkey]

/-- C8 (amended): with forward motion and an auto-selected gait, the Base
along-track coordinate is non-decreasing across consecutive samples within
a cycle, and corresponding samples of consecutive cycles (in particular
first sample to first sample) differ by exactly one relative cycle length
`rlc`; the last-to-first inter-cycle step is `rlc` plus the (generally
nonzero) difference `basex0(0) - basex0(nt-1)`, not exactly `rlc`. -/
theorem basex_forward_motion (g : Gait) (rv : ℝ) (nt : ℕ)
    (hg : get_gait rv = Except.ok g) (hnt : 2 ≤ nt) :
    (∀ j : ℕ, (j + 1) % nt ≠ 0 →
      basex g rv nt true j ≤ basex g rv nt true (j + 1)) ∧
    (∀ j : ℕ, basex g rv nt true (j + nt) = basex g rv nt true j + rlc_of rv) := by
  have hnt0 : 0 < nt := by omega
  constructor
  · intro j hj
    have hilt : j % nt < nt := Nat.mod_lt _ hnt0
    have hi1 : j % nt + 1 < nt := by
      rcases Nat.lt_or_ge (j % nt + 1) nt with h | h
      · exact h
      · exfalso
        have heq : j % nt + 1 = nt := by omega
        have h0 : (j + 1) % nt = 0 := by
          rw [Nat.add_mod, Nat.mod_eq_of_lt (show 1 < nt by omega), heq,
            Nat.mod_self]
        exact hj h0
    have hmod : (j + 1) % nt = j % nt + 1 := by
      rw [Nat.add_mod, Nat.mod_eq_of_lt (show 1 < nt by omega)]
      exact Nat.mod_eq_of_lt hi1
    have hdiv : (j + 1) / nt = j / nt := by
      conv_lhs => rw [show j + 1 = (j % nt + 1) + nt * (j / nt) by
        have := Nat.div_add_mod j nt
        omega]
      rw [Nat.add_mul_div_left _ _ hnt0, Nat.div_eq_of_lt hi1, Nat.zero_add]
    unfold basex
    rw [hmod, hdiv]
    have hstep := basex0_step g rv nt hg hnt (j % nt) hi1
    linarith [hstep]
  · intro j
    unfold basex
    rw [Nat.add_mod_right, Nat.add_div_right _ hnt0]
    simp only [eq_self_iff_true, if_true]
    push_cast
    ring

theorem transforback_b_abs_le (rv : ℝ) (nt i : ℕ) :
    |transforback Gait.b rv nt i| ≤ 0.021 := by
  unfold transforback
  rw [show aa_of Gait.b rv = -0.021 from rfl, abs_mul,
    show |(-0.021 : ℝ)| = 0.021 from by rw [abs_of_nonpos] <;> norm_num]
  have hs := Real.abs_sin_le_one
    (2 * Real.pi * (2 * ((i : ℝ) / (nt : ℝ)) + 2 * phia_of rv))
  nlinarith [abs_nonneg (Real.sin
    (2 * Real.pi * (2 * ((i : ℝ) / (nt : ℝ)) + 2 * phia_of rv)))]

/-- C8 (counterexample): at height 1.8, velocity 1 (auto gait `b`), sample
rate 2.6 Hz and duration 3 s — a valid parameter set whose derived timing
is `numcyc = 2` cycles of `nt = 4` samples — the Base along-track increase
from the last sample of cycle 0 (index 3) to the first sample of cycle 1
(index 4) is NOT exactly one relative cycle length `rlc = 1.346`: the
replication adds `rlc` to the first sample of the cycle, not to its last
sample, leaving a residue `basex0(0) - basex0(3) ≠ 0`. -/
theorem base_last_to_first_jump_not_rlc :
    get_gait 1 = Except.ok Gait.b ∧
    numcyc_of 1.8 1 3 = 2 ∧
    nt_of 1.8 1 2.6 3 = 4 ∧
    basex Gait.b 1 4 true 4 - basex Gait.b 1 4 true 3 ≠ rlc_of 1 := by
  have hgait : get_gait 1 = Except.ok Gait.b := by
    unfold get_gait
    rw [if_neg (by norm_num), if_neg (by norm_num), if_pos (by norm_num)]
  have hrdc : rdc_of 1.8 1 = 6730 / 4419 := by
    unfold rdc_of rlc_of
    rw [Real.sqrt_one]
    norm_num
  have hnumcyc : numcyc_of 1.8 1 3 = 2 := by
    unfold numcyc_of
    rw [hrdc, Int.ceil_eq_iff]
    constructor <;> norm_num
  have hnumpl : numpl_of 1.8 1 2.6 3 = 8 := by
    unfold numpl_of
    rw [hrdc, hnumcyc]
    have harg : (6730 / 4419 : ℝ) * ((2 : ℤ) : ℝ) * 2.6 = 34996 / 4419 := by
      push_cast
      norm_num
    rw [harg]
    have hfl : ⌊(34996 / 4419 : ℝ)⌋ = 7 := by
      rw [Int.floor_eq_iff]
      constructor <;> norm_num
    apply npround_eq_of
    · rw [← Int.self_sub_floor, hfl]
      norm_num
    · rw [round_eq, Int.floor_eq_iff]
      constructor <;> norm_num
  have hnt : nt_of 1.8 1 2.6 3 = 4 := by
    show npround ((numpl_of 1.8 1 2.6 3 : ℝ) / (numcyc_of 1.8 1 3 : ℝ)) +
      (if npround ((numpl_of 1.8 1 2.6 3 : ℝ) / (numcyc_of 1.8 1 3 : ℝ)) % 2 = 1
        then 1 else 0) = 4
    rw [hnumpl, hnumcyc]
    have harg : ((8 : ℤ) : ℝ) / ((2 : ℤ) : ℝ) = 4 := by
      push_cast
      norm_num
    rw [harg]
    have h4 : npround (4 : ℝ) = 4 := by
      have hfl : ⌊(4 : ℝ)⌋ = 4 := by
        rw [Int.floor_eq_iff]
        constructor <;> norm_num
      apply npround_eq_of
      · rw [← Int.self_sub_floor, hfl]
        norm_num
      · rw [round_eq, Int.floor_eq_iff]
        constructor <;> norm_num
    rw [h4]
    norm_num
  have hrlc1 : rlc_of 1 = 1.346 := by
    unfold rlc_of
    rw [Real.sqrt_one]
    norm_num
  have h1 : basex Gait.b 1 4 true 4 = transforback Gait.b 1 4 0 + rlc_of 1 := by
    unfold basex basex0
    norm_num [fwd_offset]
  have h3 : basex Gait.b 1 4 true 3 =
      transforback Gait.b 1 4 3 + (4 / 5) * rlc_of 1 := by
    unfold basex basex0
    norm_num [fwd_offset]
    ring
  refine ⟨hgait, hnumcyc, hnt, ?_⟩
  intro heq
  rw [h1, h3, hrlc1] at heq
  have hb0 := transforback_b_abs_le 1 4 0
  have hb3 := transforback_b_abs_le 1 4 3
  rcases abs_le.mp hb0 with ⟨hb0l, hb0r⟩
  rcases abs_le.mp hb3 with ⟨hb3l, hb3r⟩
  linarith

/-- C8 witness: the amended invariant at the parameters of the
counterexample (gait `b`, velocity 1, `nt = 4`). -/
theorem basex_forward_motion_witness :
    get_gait 1 = Except.ok Gait.b ∧ 2 ≤ 4 ∧
    ((∀ j : ℕ, (j + 1) % 4 ≠ 0 →
        basex Gait.b 1 4 true j ≤ basex Gait.b 1 4 true (j + 1)) ∧
      (∀ j : ℕ, basex Gait.b 1 4 true (j + 4) =
        basex Gait.b 1 4 true j + rlc_of 1)) := by
  have hgait : get_gait 1 = Except.ok Gait.b := by
    unfold get_gait
    rw [if_neg (by norm_num), if_neg (by norm_num), if_pos (by norm_num)]
  exact ⟨hgait, by norm_num, basex_forward_motion Gait.b 1 4 hgait (by norm_num)⟩
